import Mathlib

/-!
Verification of the error-prefix inference and matching engine of
go-check-err-chains (source file src/errchain/errtext.go).

Go strings are modelled as `List Char`.  The embedding keeps the source's
structure and names: `parsePrefix`, `location.matchLoc` (Go `location.match`;
`match` is a Lean keyword), `errorPrefixes`, `recvString`, `isReturnsError`,
`handleFuncDecl`, `handleFuncBody`.  Go's `unicode.IsLetter`, `IsDigit` and
`IsUpper` are modelled on their ASCII part (every identifier appearing in the
repository is ASCII; the non-ASCII Unicode categories are outside the modelled
scope and none of the properties below depends on them).
-/

/-- ASCII part of Go `unicode.IsLetter`. -/
def unicodeIsLetter (c : Char) : Bool := c.isAlpha

/-- ASCII part of Go `unicode.IsDigit`. -/
def unicodeIsDigit (c : Char) : Bool := c.isDigit

/-- ASCII part of Go `unicode.IsUpper`. -/
def unicodeIsUpper (c : Char) : Bool := c.isUpper

/-- The Go keywords, as tested by `go/token.IsKeyword` (used by
`go/token.IsIdentifier`). -/
def goKeywords : List (List Char) :=
  ["break", "case", "chan", "const", "continue", "default", "defer", "else",
   "fallthrough", "for", "func", "go", "goto", "if", "interface", "map",
   "package", "range", "return", "select", "struct", "switch", "type", "var",
   "import"].map String.toList

/-- Character loop of Go `go/token.IsIdentifier`: a character is rejected when
it is not a letter, not an underscore, and (it is the first character or it is
not a digit). -/
def goIdentChars : List Char → Bool → Bool
  | [], _ => true
  | c :: rest, first =>
    if !unicodeIsLetter c && c != '_' && (first || !unicodeIsDigit c) then false
    else goIdentChars rest false

/-- Go `go/token.IsIdentifier`: nonempty, not a keyword, and every character a
letter, underscore, or (except in first position) a digit. -/
def tokenIsIdentifier (name : List Char) : Bool :=
  if name = [] ∨ name ∈ goKeywords then false
  else goIdentChars name true

/-- Go `ast.IsExported`: the name starts with an upper-case letter (the empty
name decodes to `utf8.RuneError`, which is not upper-case). -/
def astIsExported (name : List Char) : Bool :=
  match name with
  | [] => false
  | c :: _ => unicodeIsUpper c

/-- Go `strings.Index(errorMessage, ": ")` combined with the slice
`errorMessage[:i]` (src/errchain/errtext.go lines 348-352): `some pre` exactly
when the separator `": "` occurs, with `pre` the text before its first
occurrence; `none` when it does not occur. -/
def textBeforeSep : List Char → Option (List Char)
  | [] => none
  | c :: rest =>
    if c = ':' ∧ rest.head? = some ' ' then some []
    else (textBeforeSep rest).map (fun pre => c :: pre)

/-- Splits a string at its first `'.'`, if any. -/
def splitFirstDot : List Char → Option (List Char × List Char)
  | [] => none
  | '.' :: rest => some ([], rest)
  | c :: rest => (splitFirstDot rest).map (fun p => (c :: p.1, p.2))

/-- Go `strings.SplitN(s, ".", n)` for a positive cap `n`: at most `n` parts,
the last part keeping the remaining dots. -/
def splitDotN : List Char → Nat → List (List Char)
  | _, 0 => []
  | s, 1 => [s]
  | s, n + 2 =>
    match splitFirstDot s with
    | none => [s]
    | some (a, b) => a :: splitDotN b (n + 1)

/-- The fragment of `go/ast.Expr` inspected by the checker: a named type, a
pointer (star) type, and everything else. -/
inductive TypeExpr where
  | ident (name : List Char)
  | star (x : TypeExpr)
  | other
deriving DecidableEq, Repr

/-- Go struct `location` (src/errchain/errtext.go lines 212-217). -/
structure location where
  pkg : List Char
  recv : List Char
  fn : List Char
  isRecvPtr : Bool
deriving DecidableEq, Repr

/-- The zero value of the Go `location` struct. -/
def location.empty : location := ⟨[], [], [], false⟩

/-- The `errorKind` values of src/errchain/errtext.go lines 225-234, one
constructor per named error value. -/
inductive errorKind where
  | errNoPrefix
  | errPackageMismatch
  | errPrefixDuplicate
  | errInvalidSyntax
  | errFuncNotFound
  | errMethodNotFound
  | errRecieverNotFound
  | errNoPointer
deriving DecidableEq, Repr

/-- Go struct `prefixError` (src/errchain/errtext.go lines 236-241). -/
structure prefixError where
  errType : errorKind
  got : List Char
  expect : List Char
  parsedPrefix : location
deriving DecidableEq, Repr

/-- An error-constructing call site as `handleFuncBody` sees it after the
external collaborators ran: `callName` is the result of `code.CallName`,
`hasArgs` whether `len(call.Args) > 0`, and `evaluatedMessage` is the literal
message evaluator's output — `some m` when the format argument is a
compile-time string constant and `m` is the `fmt.Sprintf` folding of the call
(lines 142-156), `none` otherwise.  No claim concerns the folding itself, so
it is carried as data rather than recomputed. -/
structure CallSite where
  callName : List Char
  hasArgs : Bool
  evaluatedMessage : Option (List Char)
deriving DecidableEq, Repr

/-- The fragment of `go/ast.FuncDecl` the checker reads.  `recvTypes` lists
the receiver field types (`fn.Recv.List[i].Type`); a nil `Recv` and an empty
list are merged, the source always testing `fn.Recv == nil ||
len(fn.Recv.List) == 0`.  `results` likewise merges a nil `Type`, nil
`Results` and an empty result list into `[]`.  `body` is `none` for a nil
`Body`, otherwise the error-constructing call sites `ast.Inspect` finds in
declaration order. -/
structure FuncDecl where
  name : Option (List Char)
  recvTypes : List TypeExpr
  results : List TypeExpr
  body : Option (List CallSite)
deriving DecidableEq, Repr

/-- Go `recvString` (src/errchain/errtext.go lines 329-345): unwrap one star,
then require a plain identifier; any other shape gives `("", false)`. -/
def recvString (fn : FuncDecl) : List Char × Bool :=
  match fn.recvTypes with
  | [] => ([], false)
  | t :: _ =>
    match t with
    | TypeExpr.star (TypeExpr.ident n) => (n, true)
    | TypeExpr.ident n => (n, false)
    | _ => ([], false)

/-- Go `fn.Name.Name` as used by `location.match` and `errorPrefixes`.  A nil
`Name` never reaches those functions (`handleFuncDecl` returns first), so the
default for `none` is arbitrary. -/
def funcName (fn : FuncDecl) : List Char := fn.name.getD []

/-- Token validation and pointer-marker handling of `parsePrefix`
(src/errchain/errtext.go lines 372-388), applied to the location built from
the dot-split components. -/
def checkTokens (loc : location) : location × Option errorKind :=
  if loc.recv ≠ [] ∧ tokenIsIdentifier loc.recv = false then
    (loc, some errorKind.errInvalidSyntax)
  else if loc.fn ≠ [] ∧ tokenIsIdentifier loc.fn = false then
    (loc, some errorKind.errInvalidSyntax)
  else if ['(', '*'] <+: loc.recv then
    if [')'] <:+ loc.recv.drop 2 then
      ({ loc with recv := (loc.recv.drop 2).dropLast, isRecvPtr := true }, none)
    else
      ({ loc with recv := loc.recv.drop 2 }, some errorKind.errInvalidSyntax)
  else (loc, none)

/-- Dot-splitting switch of `parsePrefix` (src/errchain/errtext.go lines
354-370) followed by `checkTokens`.  `strings.SplitN` with a positive cap
never yields an empty slice, so the `[]` arm is unreachable (Go indexes
`split[0]` unconditionally). -/
def parsePrefixCore (pre : List Char) : location × Option errorKind :=
  match splitDotN pre 4 with
  | [p] => checkTokens ⟨p, [], [], false⟩
  | [p, f] => checkTokens ⟨p, [], f, false⟩
  | [p, r, f] => checkTokens ⟨p, r, f, false⟩
  | p :: r :: f :: _ :: _ => (⟨p, r, f, false⟩, some errorKind.errInvalidSyntax)
  | [] => (location.empty, some errorKind.errInvalidSyntax)

/-- Go `parsePrefix` (src/errchain/errtext.go lines 347-389). -/
def parsePrefix (errorMessage : List Char) : location × Option errorKind :=
  match textBeforeSep errorMessage with
  | none => (location.empty, some errorKind.errNoPrefix)
  | some pre => parsePrefixCore pre

/-- Go method `location.match` (src/errchain/errtext.go lines 243-326), named
`matchLoc` because `match` is a Lean keyword.  `pkgName` is `pkg.Name()`,
`pkgPath` is `pkg.Path()`.  The two trailing `none` arms are the source's
"unreachable" fallthrough `return nil` (line 325). -/
def location.matchLoc (loc : location) (pkgName pkgPath : List Char)
    (fn : FuncDecl) : Option prefixError :=
  if loc.pkg = [] then
    some ⟨errorKind.errNoPrefix, loc.pkg, pkgName, loc⟩
  else if ¬ (loc.pkg <:+ pkgPath) then
    some ⟨errorKind.errPackageMismatch, loc.pkg, pkgName, loc⟩
  else
    let recieverName := (recvString fn).1
    let isRecieverPointer := (recvString fn).2
    let functionName := funcName fn
    if loc.recv = [] ∧ loc.fn = [] then none
    else if loc.recv = [] ∧ loc.fn ≠ [] then
      if loc.fn = recieverName then none
      else if loc.fn = functionName then none
      else
        some ⟨errorKind.errFuncNotFound, loc.fn,
          functionName ++ " or ".toList ++ recieverName, loc⟩
    else if loc.recv ≠ [] ∧ loc.fn ≠ [] then
      if loc.recv = recieverName ∧ loc.fn ≠ functionName then
        some ⟨errorKind.errMethodNotFound, loc.fn, functionName, loc⟩
      else if loc.recv ≠ recieverName ∧ loc.fn = functionName then
        some ⟨errorKind.errRecieverNotFound, loc.recv, recieverName, loc⟩
      else if loc.recv ≠ recieverName ∧ loc.fn ≠ functionName then
        some ⟨errorKind.errMethodNotFound, loc.recv ++ ['.'] ++ loc.fn,
          recieverName ++ ['.'] ++ functionName, loc⟩
      else if loc.recv = recieverName ∧ loc.fn = functionName then
        if loc.isRecvPtr = true ∧ isRecieverPointer = false then
          some ⟨errorKind.errNoPointer, ['(', '*'] ++ loc.recv ++ [')'],
            recieverName, loc⟩
        else none
      else none
    else none

/-- Go `errorPrefixes` (src/errchain/errtext.go lines 75-108): the prefix
recommender.  `pkgName` is `pkg.Name()`. -/
def errorPrefixes (pkgName : List Char) (fn : FuncDecl) : List (List Char) :=
  match fn.name with
  | none => []
  | some fname =>
    match fn.recvTypes with
    | [] => [pkgName ++ ": ".toList, pkgName ++ ['.'] ++ fname ++ ": ".toList]
    | t :: _ =>
      match t with
      | TypeExpr.star (TypeExpr.ident n) =>
        [pkgName ++ ": ".toList,
         pkgName ++ ['.'] ++ n ++ ['.'] ++ fname ++ ": ".toList,
         pkgName ++ ".(*".toList ++ n ++ ").".toList ++ fname ++ ": ".toList,
         pkgName ++ ['.'] ++ n ++ ": ".toList]
      | TypeExpr.ident n =>
        [pkgName ++ ": ".toList,
         pkgName ++ ['.'] ++ n ++ ['.'] ++ fname ++ ": ".toList,
         pkgName ++ ['.'] ++ n ++ ": ".toList]
      | _ => []

/-- Go `isReturnsError` (src/errchain/errtext.go lines 111-128): the last
declared result is the identifier `error`. -/
def isReturnsError (funcDecl : FuncDecl) : Bool :=
  match funcDecl.results.getLast? with
  | some (TypeExpr.ident name) => decide (name = "error".toList)
  | _ => false

/-- The post-evaluation part of Go `handleFuncBody` (src/errchain/errtext.go
lines 157-196): parse the folded message, then route by the parse error.  On
`errInvalidSyntax`, a successful match of the partial parse reports
`errInvalidSyntax` while a failed match reports `errNoPrefix`; any other
parse error falls through to the match (the source's `default` arm only
panics in debug mode).  The result is the `errType` handed to `report`, or
`none` when nothing is reported. -/
def classifyParsedMessage (pkgName pkgPath : List Char) (parentFunc : FuncDecl)
    (errorMessage : List Char) : Option errorKind :=
  match (parsePrefix errorMessage).2 with
  | some errorKind.errNoPrefix => some errorKind.errNoPrefix
  | some errorKind.errInvalidSyntax =>
    match (parsePrefix errorMessage).1.matchLoc pkgName pkgPath parentFunc with
    | none => some errorKind.errInvalidSyntax
    | some _ => some errorKind.errNoPrefix
  | some _ =>
    ((parsePrefix errorMessage).1.matchLoc pkgName pkgPath parentFunc).map
      (fun e => e.errType)
  | none =>
    ((parsePrefix errorMessage).1.matchLoc pkgName pkgPath parentFunc).map
      (fun e => e.errType)

/-- Go `handleFuncBody` (src/errchain/errtext.go lines 130-198) for one call
site: the argument-count guard, the constructor-name switch, the
constant-format guard, then `classifyParsedMessage`. -/
def handleFuncBody (pkgName pkgPath : List Char) (parentFunc : FuncDecl)
    (call : CallSite) : Option errorKind :=
  if call.hasArgs = false then none
  else if call.callName = "errors.New".toList ∨ call.callName = "fmt.Errorf".toList then
    match call.evaluatedMessage with
    | none => none
    | some errorMessage => classifyParsedMessage pkgName pkgPath parentFunc errorMessage
  else none

/-- Go `handleFuncDecl` (src/errchain/errtext.go lines 59-72): skip nil name
or body, skip unexported or not-error-returning declarations, otherwise visit
every call site of the body.  The result lists the reported error kinds, one
per emitted diagnostic. -/
def handleFuncDecl (pkgName pkgPath : List Char) (funcDecl : FuncDecl) :
    List errorKind :=
  match funcDecl.name, funcDecl.body with
  | some nm, some calls =>
    if astIsExported nm = true ∧ isReturnsError funcDecl = true then
      calls.filterMap (handleFuncBody pkgName pkgPath funcDecl)
    else []
  | _, _ => []

/-- The pointer-receiver method `Method` on `Struct` of the test package
`aaa` (src/errchain/testdata/aaa/aaa.go lines 12-35). -/
def fdMethod : FuncDecl :=
  ⟨some "Method".toList, [TypeExpr.star (TypeExpr.ident "Struct".toList)],
   [TypeExpr.ident "int".toList, TypeExpr.ident "error".toList], some []⟩

/-- The value-receiver method `MethodWithoutPointer` on `Struct`
(src/errchain/testdata/aaa/aaa.go lines 37-39). -/
def fdMethodWithoutPointer : FuncDecl :=
  ⟨some "MethodWithoutPointer".toList, [TypeExpr.ident "Struct".toList],
   [TypeExpr.ident "error".toList], some []⟩

/-- The free function `PublicFunction` (src/errchain/testdata/aaa/aaa.go
lines 49-57). -/
def fdPublicFunction : FuncDecl :=
  ⟨some "PublicFunction".toList, [], [TypeExpr.ident "error".toList], some []⟩

/-- A string starting with an opening parenthesis is never a Go identifier. -/
theorem tokenIsIdentifier_paren (l : List Char) :
    tokenIsIdentifier ('(' :: l) = false := by
  unfold tokenIsIdentifier
  split
  · rfl
  · rfl

/-- A valid Go identifier never starts with the pointer marker `(*`. -/
theorem tokenIsIdentifier_no_parenMarker {r : List Char}
    (h : tokenIsIdentifier r = true) : ¬ (['(', '*'] <+: r) := by
  rintro ⟨t, ht⟩
  rw [← ht] at h
  simp only [List.cons_append, List.nil_append] at h
  rw [tokenIsIdentifier_paren] at h
  exact Bool.false_ne_true h

/-- A receiver token that survives the identifier check cannot carry the
pointer marker, so the stripping branch of `checkTokens` is unreachable. -/
theorem no_parenMarker_after_check {recv : List Char}
    (h1 : ¬(recv ≠ [] ∧ tokenIsIdentifier recv = false))
    (h3 : ['(', '*'] <+: recv) : False := by
  push_neg at h1
  have hne : recv ≠ [] := by
    obtain ⟨t, ht⟩ := h3
    rw [← ht]
    simp
  have hid : tokenIsIdentifier recv = true := by simpa using h1 hne
  exact tokenIsIdentifier_no_parenMarker hid h3

/-- The reachable branches of `checkTokens` return the location unchanged. -/
theorem checkTokens_fst (loc : location) : (checkTokens loc).1 = loc := by
  unfold checkTokens
  split_ifs with h1 h2 h3 h4
  · rfl
  · rfl
  · exact absurd h3 (fun h => no_parenMarker_after_check h1 h)
  · exact absurd h3 (fun h => no_parenMarker_after_check h1 h)
  · rfl

/-- The error of `checkTokens` is `none` or `errInvalidSyntax`. -/
theorem checkTokens_snd_cases (loc : location) :
    (checkTokens loc).2 = none ∨
    (checkTokens loc).2 = some errorKind.errInvalidSyntax := by
  unfold checkTokens
  split_ifs <;> simp

/-- Exact success condition of `checkTokens`: every nonempty token must be a
valid Go identifier. -/
theorem checkTokens_snd_none_iff (loc : location) :
    (checkTokens loc).2 = none ↔
    ((loc.recv = [] ∨ tokenIsIdentifier loc.recv = true) ∧
     (loc.fn = [] ∨ tokenIsIdentifier loc.fn = true)) := by
  unfold checkTokens
  split_ifs with h1 h2 h3 h4
  · constructor
    · intro h
      exact h.elim
    · rintro ⟨hr | hr, -⟩
      · exact absurd hr h1.1
      · exact absurd hr (by simp [h1.2])
  · constructor
    · intro h
      exact h.elim
    · rintro ⟨-, hf | hf⟩
      · exact absurd hf h2.1
      · exact absurd hf (by simp [h2.2])
  · exact absurd h3 (fun h => no_parenMarker_after_check h1 h)
  · exact absurd h3 (fun h => no_parenMarker_after_check h1 h)
  · push_neg at h1 h2
    constructor
    · intro _
      constructor
      · rcases eq_or_ne loc.recv [] with hr | hr
        · exact Or.inl hr
        · exact Or.inr (by simpa using h1 hr)
      · rcases eq_or_ne loc.fn [] with hf | hf
        · exact Or.inl hf
        · exact Or.inr (by simpa using h2 hf)
    · intro _
      rfl

/-- Reduction of `parsePrefixCore` on a one-component split. -/
theorem parsePrefixCore_one {pre p : List Char} (h : splitDotN pre 4 = [p]) :
    parsePrefixCore pre = checkTokens ⟨p, [], [], false⟩ := by
  unfold parsePrefixCore
  rw [h]

/-- Reduction of `parsePrefixCore` on a two-component split. -/
theorem parsePrefixCore_two {pre p f : List Char} (h : splitDotN pre 4 = [p, f]) :
    parsePrefixCore pre = checkTokens ⟨p, [], f, false⟩ := by
  unfold parsePrefixCore
  rw [h]

/-- Reduction of `parsePrefixCore` on a three-component split. -/
theorem parsePrefixCore_three {pre p r f : List Char}
    (h : splitDotN pre 4 = [p, r, f]) :
    parsePrefixCore pre = checkTokens ⟨p, r, f, false⟩ := by
  unfold parsePrefixCore
  rw [h]

/-- Reduction of `parsePrefixCore` on a split of four or more components. -/
theorem parsePrefixCore_four {pre p r f d : List Char} {rest : List (List Char)}
    (h : splitDotN pre 4 = p :: r :: f :: d :: rest) :
    parsePrefixCore pre = (⟨p, r, f, false⟩, some errorKind.errInvalidSyntax) := by
  unfold parsePrefixCore
  rw [h]

/-- When the separator is found, `parsePrefix` is `parsePrefixCore` on the
text before it. -/
theorem parsePrefix_eq_core {msg pre : List Char}
    (ht : textBeforeSep msg = some pre) :
    parsePrefix msg = parsePrefixCore pre := by
  unfold parsePrefix
  rw [ht]

/-- When the separator is missing, `parsePrefix` reports `errNoPrefix`. -/
theorem parsePrefix_eq_noPrefix {msg : List Char}
    (ht : textBeforeSep msg = none) :
    parsePrefix msg = (location.empty, some errorKind.errNoPrefix) := by
  unfold parsePrefix
  rw [ht]

/-- Every location `parsePrefix` ever returns, on error or not, has
`isRecvPtr = false`: the pointer-stripping branch of `checkTokens` is dead
code, because a receiver token starting with `(*` already fails the
identifier check. -/
theorem parsePrefix_isRecvPtr_false (msg : List Char) :
    (parsePrefix msg).1.isRecvPtr = false := by
  cases ht : textBeforeSep msg with
  | none => rw [parsePrefix_eq_noPrefix ht]; rfl
  | some pre =>
    rw [parsePrefix_eq_core ht]
    rcases hs : splitDotN pre 4 with _ | ⟨p, _ | ⟨b, _ | ⟨c, _ | ⟨d, rest⟩⟩⟩⟩
    · unfold parsePrefixCore
      rw [hs]
      rfl
    · rw [parsePrefixCore_one hs, checkTokens_fst]
    · rw [parsePrefixCore_two hs, checkTokens_fst]
    · rw [parsePrefixCore_three hs, checkTokens_fst]
    · rw [parsePrefixCore_four hs]

/-- The error of `parsePrefix` is `none`, `errNoPrefix` or
`errInvalidSyntax`; no other kind is ever produced by the parser. -/
theorem parsePrefix_snd_cases (msg : List Char) :
    (parsePrefix msg).2 = none ∨
    (parsePrefix msg).2 = some errorKind.errNoPrefix ∨
    (parsePrefix msg).2 = some errorKind.errInvalidSyntax := by
  cases ht : textBeforeSep msg with
  | none => rw [parsePrefix_eq_noPrefix ht]; exact Or.inr (Or.inl rfl)
  | some pre =>
    rw [parsePrefix_eq_core ht]
    rcases hs : splitDotN pre 4 with _ | ⟨p, _ | ⟨b, _ | ⟨c, _ | ⟨d, rest⟩⟩⟩⟩
    · unfold parsePrefixCore
      rw [hs]
      exact Or.inr (Or.inr rfl)
    · rw [parsePrefixCore_one hs]
      rcases checkTokens_snd_cases ⟨p, [], [], false⟩ with h | h
      · exact Or.inl h
      · exact Or.inr (Or.inr h)
    · rw [parsePrefixCore_two hs]
      rcases checkTokens_snd_cases ⟨p, [], b, false⟩ with h | h
      · exact Or.inl h
      · exact Or.inr (Or.inr h)
    · rw [parsePrefixCore_three hs]
      rcases checkTokens_snd_cases ⟨p, b, c, false⟩ with h | h
      · exact Or.inl h
      · exact Or.inr (Or.inr h)
    · rw [parsePrefixCore_four hs]
      exact Or.inr (Or.inr rfl)

set_option maxHeartbeats 1000000 in
/-- A location whose pointer flag is down is never classified
`errNoPointer` by the matcher. -/
theorem matchLoc_no_errNoPointer (loc : location) (pkgName pkgPath : List Char)
    (fd : FuncDecl) (hptr : loc.isRecvPtr = false) (e : prefixError)
    (he : loc.matchLoc pkgName pkgPath fd = some e) :
    e.errType ≠ errorKind.errNoPointer := by
  simp only [location.matchLoc] at he
  split_ifs at he
  all_goals
    first
      | exact Option.noConfusion he
      | (simp only [Option.some.injEq] at he
         subst he
         exact fun hk => errorKind.noConfusion hk)
      | (rename_i hcond
         exact absurd hcond.1 (by simp [hptr]))

/-- If the separator `": "` does not occur in the message then
`textBeforeSep` finds nothing. -/
theorem textBeforeSep_none_of_no_sep {msg : List Char}
    (h : ¬ ([':', ' '] <:+: msg)) : textBeforeSep msg = none := by
  induction msg with
  | nil => rfl
  | cons c rest ih =>
    have hni : ¬ ([':', ' '] <:+: rest) := fun hi => h (List.infix_cons hi)
    have hcond : ¬ (c = ':' ∧ rest.head? = some ' ') := by
      rintro ⟨hc, hh⟩
      rcases rest with _ | ⟨c2, rest2⟩
      · exact Option.noConfusion hh
      · simp only [List.head?_cons, Option.some.injEq] at hh
        exact h ⟨[], rest2, by simp [hc, hh]⟩
    unfold textBeforeSep
    rw [if_neg hcond, ih hni]
    rfl

/-- C1: the round-trip invariant of the spec fails on the pointer-marked
spelling.  The recommender `errorPrefixes` emits "aaa.(*Struct).Method: " for
the pointer-receiver method `Method` on `Struct`, yet a message starting with
that very prefix is rejected by `parsePrefix` as `errInvalidSyntax` (the
receiver token "(*Struct)" fails the bare-identifier check), and the pipeline
then reports `errNoPrefix` instead of succeeding. -/
theorem C1_roundtrip_failure :
    "aaa.(*Struct).Method: ".toList ∈ errorPrefixes "aaa".toList fdMethod ∧
    (parsePrefix "aaa.(*Struct).Method: error".toList).2 =
      some errorKind.errInvalidSyntax ∧
    classifyParsedMessage "aaa".toList "aaa".toList fdMethod
      "aaa.(*Struct).Method: error".toList = some errorKind.errNoPrefix := by
  decide

/-- C2 counterexample: the claim's NoPointer direction is inverted.  A
pointer-receiver method (`Method` on `*Struct`) whose prefix lacks the
pointer marker succeeds (the claim says `errNoPointer`), while a
value-receiver method (`MethodWithoutPointer` on `Struct`) whose prefix
carries the marker is classified `errNoPointer` (the claim says success). -/
theorem C2_counterexample :
    location.matchLoc ⟨"aaa".toList, "Struct".toList, "Method".toList, false⟩
      "aaa".toList "aaa".toList fdMethod = none ∧
    location.matchLoc
      ⟨"aaa".toList, "Struct".toList, "MethodWithoutPointer".toList, true⟩
      "aaa".toList "aaa".toList fdMethodWithoutPointer =
      some ⟨errorKind.errNoPointer, "(*Struct)".toList, "Struct".toList,
        ⟨"aaa".toList, "Struct".toList, "MethodWithoutPointer".toList, true⟩⟩ := by
  decide

/-- C2 (amended): when both tokens are set and both equal the identity's
receiver and function names, the matcher returns `errNoPointer` exactly when
the parsed prefix carries the pointer marker while the identity's receiver is
not a pointer, and success otherwise. -/
theorem C2_pointer_marker_rule (loc : location) (pkgName pkgPath : List Char)
    (fd : FuncDecl) (h1 : loc.pkg ≠ []) (h2 : loc.pkg <:+ pkgPath)
    (h3 : loc.recv ≠ []) (h4 : loc.fn ≠ [])
    (h5 : loc.recv = (recvString fd).1) (h6 : loc.fn = funcName fd) :
    loc.matchLoc pkgName pkgPath fd =
      if loc.isRecvPtr = true ∧ (recvString fd).2 = false then
        some ⟨errorKind.errNoPointer, ['(', '*'] ++ loc.recv ++ [')'],
          (recvString fd).1, loc⟩
      else none := by
  simp only [location.matchLoc]
  rw [if_neg h1, if_neg (not_not_intro h2), if_neg (fun hA => h4 hA.2),
    if_neg (fun hB => h3 hB.1), if_pos ⟨h3, h4⟩, if_neg (fun hD => hD.2 h6),
    if_neg (fun hE => hE.1 h5), if_neg (fun hF => hF.1 h5), if_pos ⟨h5, h6⟩]

/-- C2 witness: a pointer-marked prefix against the pointer-receiver method
succeeds under the matcher. -/
theorem C2_witness :
    location.matchLoc ⟨"aaa".toList, "Struct".toList, "Method".toList, true⟩
      "aaa".toList "aaa".toList fdMethod = none := by
  rw [C2_pointer_marker_rule ⟨"aaa".toList, "Struct".toList, "Method".toList, true⟩
    "aaa".toList "aaa".toList fdMethod (by decide) (by decide) (by decide)
    (by decide) (by decide) (by decide)]
  decide

/-- C3 counterexample: for the pointer-receiver method `Method` on `Struct`
in package `aaa`, the message with the unbalanced pointer marker is reported
as `errNoPrefix` (the partial parse does not match, its receiver token being
"(*Struct"), not as `errInvalidSyntax` as the claim states. -/
theorem C3_counterexample :
    classifyParsedMessage "aaa".toList "aaa".toList fdMethod
      "aaa.(*Struct.Method: error".toList = some errorKind.errNoPrefix ∧
    classifyParsedMessage "aaa".toList "aaa".toList fdMethod
      "aaa.(*Struct.Method: error".toList ≠ some errorKind.errInvalidSyntax := by
  decide

/-- C3 (amended): when the parse is `errInvalidSyntax`, the diagnostic is
`errInvalidSyntax` exactly when the best-effort partial parse still matches
the identity, and is downgraded to `errNoPrefix` guidance when the partial
parse cannot match — the opposite routing of the claim. -/
theorem C3_invalid_syntax_reporting (pkgName pkgPath msg : List Char)
    (fd : FuncDecl)
    (h : (parsePrefix msg).2 = some errorKind.errInvalidSyntax) :
    classifyParsedMessage pkgName pkgPath fd msg =
      match (parsePrefix msg).1.matchLoc pkgName pkgPath fd with
      | none => some errorKind.errInvalidSyntax
      | some _ => some errorKind.errNoPrefix := by
  unfold classifyParsedMessage
  rw [h]

/-- A value-receiver method `c` on type `b` in package path `x/aaa`, giving a
partial parse of an invalid-syntax message that matches the identity. -/
def fdSmall : FuncDecl :=
  ⟨some "c".toList, [TypeExpr.ident "b".toList],
   [TypeExpr.ident "error".toList], some []⟩

/-- C3 witness: a four-component message is invalid syntax, and since its
partial parse matches `fdSmall`, `errInvalidSyntax` is reported. -/
theorem C3_witness :
    classifyParsedMessage "aaa".toList "x/aaa".toList fdSmall
      "aaa.b.c.d: e".toList = some errorKind.errInvalidSyntax := by
  rw [C3_invalid_syntax_reporting "aaa".toList "x/aaa".toList
    "aaa.b.c.d: e".toList fdSmall (by decide)]
  decide

/-- C4: whenever `parsePrefix` returns with no error the returned location
has `isRecvPtr = false` — a receiver token beginning with "(*" fails the
bare-identifier check before the pointer-stripping code runs — and
consequently the parse-then-match pipeline never reports `errNoPointer` for
any message. -/
theorem C4_successful_parse_never_pointer :
    (∀ msg : List Char,
      (parsePrefix msg).2 = none → (parsePrefix msg).1.isRecvPtr = false) ∧
    (∀ (pkgName pkgPath msg : List Char) (fd : FuncDecl),
      classifyParsedMessage pkgName pkgPath fd msg ≠
        some errorKind.errNoPointer) := by
  constructor
  · intro msg _
    exact parsePrefix_isRecvPtr_false msg
  · intro pkgName pkgPath msg fd
    unfold classifyParsedMessage
    rcases parsePrefix_snd_cases msg with h | h | h
    · rw [h]
      show ((parsePrefix msg).1.matchLoc pkgName pkgPath fd).map
        (fun e => e.errType) ≠ some errorKind.errNoPointer
      cases hm : (parsePrefix msg).1.matchLoc pkgName pkgPath fd with
      | none => simp
      | some e =>
        simp only [Option.map_some', ne_eq, Option.some.injEq]
        exact matchLoc_no_errNoPointer _ pkgName pkgPath fd
          (parsePrefix_isRecvPtr_false msg) e hm
    · rw [h]
      intro hk
      exact errorKind.noConfusion (Option.some.inj hk)
    · rw [h]
      show (match (parsePrefix msg).1.matchLoc pkgName pkgPath fd with
        | none => some errorKind.errInvalidSyntax
        | some _ => some errorKind.errNoPrefix) ≠ some errorKind.errNoPointer
      cases hm : (parsePrefix msg).1.matchLoc pkgName pkgPath fd with
      | none =>
        intro hk
        exact errorKind.noConfusion (Option.some.inj hk)
      | some e =>
        intro hk
        exact errorKind.noConfusion (Option.some.inj hk)

/-- C4 witness: the invariant applied at a concrete successfully parsed
message, and the pipeline at a concrete message. -/
theorem C4_witness :
    (parsePrefix "aaa.Struct.Method: x".toList).1.isRecvPtr = false ∧
    classifyParsedMessage "aaa".toList "aaa".toList fdMethod "bbb: x".toList ≠
      some errorKind.errNoPointer :=
  ⟨C4_successful_parse_never_pointer.1 "aaa.Struct.Method: x".toList (by decide),
   C4_successful_parse_never_pointer.2 "aaa".toList "aaa".toList
     "bbb: x".toList fdMethod⟩

/-- C5: a parsed prefix with a non-empty package token that is not a suffix
of the package's import path is classified `errPackageMismatch` by the
matcher; and the comparison is a suffix match, so whenever the token is a
suffix the matcher never produces `errPackageMismatch`. -/
theorem C5_package_suffix_rule (loc : location) (pkgName pkgPath : List Char)
    (fd : FuncDecl) (h1 : loc.pkg ≠ []) :
    (¬ (loc.pkg <:+ pkgPath) →
      loc.matchLoc pkgName pkgPath fd =
        some ⟨errorKind.errPackageMismatch, loc.pkg, pkgName, loc⟩) ∧
    (loc.pkg <:+ pkgPath →
      ∀ e, loc.matchLoc pkgName pkgPath fd = some e →
        e.errType ≠ errorKind.errPackageMismatch) := by
  constructor
  · intro h2
    simp only [location.matchLoc]
    rw [if_neg h1, if_pos h2]
  · intro h2 e he
    simp only [location.matchLoc] at he
    rw [if_neg h1, if_neg (not_not_intro h2)] at he
    split_ifs at he
    all_goals first
      | exact Option.noConfusion he
      | (simp only [Option.some.injEq] at he
         subst he
         exact fun hk => errorKind.noConfusion hk)

/-- C5 witness: a package token that is not a suffix of the import path is
rejected as `errPackageMismatch`. -/
theorem C5_witness :
    location.matchLoc ⟨"bbb".toList, [], [], false⟩ "aaa".toList
      "x/aaa".toList fdMethod =
      some ⟨errorKind.errPackageMismatch, "bbb".toList, "aaa".toList,
        ⟨"bbb".toList, [], [], false⟩⟩ :=
  (C5_package_suffix_rule ⟨"bbb".toList, [], [], false⟩ "aaa".toList
    "x/aaa".toList fdMethod (by decide)).1 (by decide)

/-- C6: for the pointer-receiver method `Method` on `Struct` in package
`aaa` the recommender produces exactly the four prefixes, in order and
without duplicates; for the free function `PublicFunction` exactly the
two. -/
theorem C6_recommender_outputs :
    errorPrefixes "aaa".toList fdMethod =
      ["aaa: ".toList, "aaa.Struct.Method: ".toList,
       "aaa.(*Struct).Method: ".toList, "aaa.Struct: ".toList] ∧
    errorPrefixes "aaa".toList fdPublicFunction =
      ["aaa: ".toList, "aaa.PublicFunction: ".toList] ∧
    (errorPrefixes "aaa".toList fdMethod).Nodup ∧
    (errorPrefixes "aaa".toList fdPublicFunction).Nodup := by
  decide

/-- C7: with an empty receiver token and a non-empty function token, after
the package check passes, the matcher succeeds exactly when the function
token equals the identity's receiver type name or its function name, and
otherwise returns `errFuncNotFound` with got the token and expected
"functionName or receiverName". -/
theorem C7_function_token_rule (loc : location) (pkgName pkgPath : List Char)
    (fd : FuncDecl) (h1 : loc.pkg ≠ []) (h2 : loc.pkg <:+ pkgPath)
    (h3 : loc.recv = []) (h4 : loc.fn ≠ []) :
    loc.matchLoc pkgName pkgPath fd =
      if loc.fn = (recvString fd).1 ∨ loc.fn = funcName fd then none
      else some ⟨errorKind.errFuncNotFound, loc.fn,
        funcName fd ++ " or ".toList ++ (recvString fd).1, loc⟩ := by
  simp only [location.matchLoc]
  rw [if_neg h1, if_neg (not_not_intro h2), if_neg (fun hA => h4 hA.2),
    if_pos ⟨h3, h4⟩]
  by_cases hr : loc.fn = (recvString fd).1
  · rw [if_pos hr, if_pos (Or.inl hr)]
  · rw [if_neg hr]
    by_cases hf : loc.fn = funcName fd
    · rw [if_pos hf, if_pos (Or.inr hf)]
    · rw [if_neg hf, if_neg (fun hor => hor.elim hr hf)]

/-- C7 witness: a function token matching neither name yields
`errFuncNotFound` with the combined expectation string. -/
theorem C7_witness :
    location.matchLoc ⟨"aaa".toList, [], "Nope".toList, false⟩ "aaa".toList
      "aaa".toList fdMethod =
      some ⟨errorKind.errFuncNotFound, "Nope".toList,
        "Method or Struct".toList, ⟨"aaa".toList, [], "Nope".toList, false⟩⟩ := by
  rw [C7_function_token_rule ⟨"aaa".toList, [], "Nope".toList, false⟩
    "aaa".toList "aaa".toList fdMethod (by decide) (by decide) rfl (by decide)]
  decide

/-- C8 counterexample: the message "a.: x" has an empty function token, which
is not a syntactically valid bare identifier, yet `parsePrefix` returns no
error — empty tokens skip the identifier check. -/
theorem C8_counterexample :
    (parsePrefix "a.: x".toList).2 = none ∧
    (parsePrefix "a.: x".toList).1.fn = [] ∧
    tokenIsIdentifier (parsePrefix "a.: x".toList).1.fn = false := by
  decide

/-- C8 (amended): the parser accepts at most 3 dot-separated components — 1
gives a package-only prefix, 2 package+function, 3 package+receiver+function,
4 or more `errInvalidSyntax` with the first three components retained — and a
NON-EMPTY receiver or function token that is not a valid bare identifier
gives `errInvalidSyntax` (an empty token is not identifier-checked and parses
without error). -/
theorem C8_component_cap (msg pre : List Char)
    (h : textBeforeSep msg = some pre) :
    (∀ p, splitDotN pre 4 = [p] →
      parsePrefix msg = (⟨p, [], [], false⟩, none)) ∧
    (∀ p f, splitDotN pre 4 = [p, f] →
      (parsePrefix msg).1 = ⟨p, [], f, false⟩ ∧
      ((parsePrefix msg).2 = none ↔ (f = [] ∨ tokenIsIdentifier f = true)) ∧
      ((parsePrefix msg).2 ≠ none →
        (parsePrefix msg).2 = some errorKind.errInvalidSyntax)) ∧
    (∀ p r f, splitDotN pre 4 = [p, r, f] →
      (parsePrefix msg).1 = ⟨p, r, f, false⟩ ∧
      ((parsePrefix msg).2 = none ↔
        ((r = [] ∨ tokenIsIdentifier r = true) ∧
         (f = [] ∨ tokenIsIdentifier f = true))) ∧
      ((parsePrefix msg).2 ≠ none →
        (parsePrefix msg).2 = some errorKind.errInvalidSyntax)) ∧
    (∀ p r f d rest, splitDotN pre 4 = p :: r :: f :: d :: rest →
      parsePrefix msg = (⟨p, r, f, false⟩, some errorKind.errInvalidSyntax)) := by
  have hp := parsePrefix_eq_core h
  refine ⟨?_, ?_, ?_, ?_⟩
  · intro p hs
    rw [hp, parsePrefixCore_one hs]
    exact Prod.ext_iff.mpr ⟨checkTokens_fst _,
      (checkTokens_snd_none_iff ⟨p, [], [], false⟩).mpr
        ⟨Or.inl rfl, Or.inl rfl⟩⟩
  · intro p f hs
    rw [hp, parsePrefixCore_two hs]
    refine ⟨checkTokens_fst _, ?_, ?_⟩
    · rw [checkTokens_snd_none_iff]
      simp
    · intro hne
      rcases checkTokens_snd_cases ⟨p, [], f, false⟩ with hc | hc
      · exact absurd hc hne
      · exact hc
  · intro p r f hs
    rw [hp, parsePrefixCore_three hs]
    refine ⟨checkTokens_fst _, checkTokens_snd_none_iff _, ?_⟩
    intro hne
    rcases checkTokens_snd_cases ⟨p, r, f, false⟩ with hc | hc
    · exact absurd hc hne
    · exact hc
  · intro p r f d rest hs
    rw [hp, parsePrefixCore_four hs]

/-- C8 witness: a four-component prefix is rejected as `errInvalidSyntax`
while the first three components are retained. -/
theorem C8_witness :
    parsePrefix "aaa.b.c.d: e".toList =
      (⟨"aaa".toList, "b".toList, "c".toList, false⟩,
       some errorKind.errInvalidSyntax) :=
  (C8_component_cap "aaa.b.c.d: e".toList "aaa.b.c.d".toList
    (by decide)).2.2.2 "aaa".toList "b".toList "c".toList "d".toList []
    (by decide)

/-- C9: a message that does not contain the separator ": " parses to
`errNoPrefix` with the zero location, and the engine's outcome is
`errNoPrefix` for every package and identity. -/
theorem C9_no_separator_noPrefix (msg pkgName pkgPath : List Char)
    (fd : FuncDecl) (h : ¬ ([':', ' '] <:+: msg)) :
    parsePrefix msg = (location.empty, some errorKind.errNoPrefix) ∧
    classifyParsedMessage pkgName pkgPath fd msg =
      some errorKind.errNoPrefix := by
  have hp := parsePrefix_eq_noPrefix (textBeforeSep_none_of_no_sep h)
  refine ⟨hp, ?_⟩
  unfold classifyParsedMessage
  rw [show (parsePrefix msg).2 = some errorKind.errNoPrefix from by rw [hp]]

/-- C9 witness: the separator-free message of the test data is reported as
`errNoPrefix`. -/
theorem C9_witness :
    parsePrefix "errrrrr".toList =
      (location.empty, some errorKind.errNoPrefix) ∧
    classifyParsedMessage "aaa".toList "aaa".toList fdMethod
      "errrrrr".toList = some errorKind.errNoPrefix :=
  C9_no_separator_noPrefix "errrrrr".toList "aaa".toList "aaa".toList
    fdMethod (by decide)

/-- C10: a declaration that is unexported, or has no results, or whose last
declared result is not the type named exactly "error", is never visited:
`handleFuncDecl` emits no diagnostic for it, whatever its body contains. -/
theorem C10_skipped_declarations (pkgName pkgPath : List Char) (fd : FuncDecl)
    (nm : List Char) (hname : fd.name = some nm)
    (h : astIsExported nm = false ∨
         fd.results = [] ∨
         (∀ t, fd.results.getLast? = some t →
           t ≠ TypeExpr.ident "error".toList)) :
    handleFuncDecl pkgName pkgPath fd = [] := by
  unfold handleFuncDecl
  rw [hname]
  cases hb : fd.body with
  | none => rfl
  | some calls =>
    show (if astIsExported nm = true ∧ isReturnsError fd = true then
        calls.filterMap (handleFuncBody pkgName pkgPath fd) else []) = []
    rw [if_neg]
    rintro ⟨hexp, hret⟩
    rcases h with h | h | h
    · rw [h] at hexp
      exact Bool.noConfusion hexp
    · unfold isReturnsError at hret
      rw [h] at hret
      exact Bool.noConfusion hret
    · unfold isReturnsError at hret
      cases hl : fd.results.getLast? with
      | none =>
        rw [hl] at hret
        exact Bool.noConfusion hret
      | some t =>
        rw [hl] at hret
        cases t with
        | ident n =>
          have hn : n = "error".toList := of_decide_eq_true hret
          exact h _ hl (by rw [hn])
        | star x => exact Bool.noConfusion hret
        | other => exact Bool.noConfusion hret

/-- A private (unexported) function whose body holds an error-constructing
call with a prefix-free constant message. -/
def fdPrivate : FuncDecl :=
  ⟨some "privateFunction".toList, [], [TypeExpr.ident "error".toList],
   some [⟨"errors.New".toList, true, some "no prefix at all".toList⟩]⟩

/-- C10 witness: the unexported function is skipped although its call site
would otherwise be reported. -/
theorem C10_witness :
    handleFuncDecl "aaa".toList "aaa".toList fdPrivate = [] :=
  C10_skipped_declarations "aaa".toList "aaa".toList fdPrivate
    "privateFunction".toList (by decide) (Or.inl (by decide))
